import Mathlib

/-!
# Verification of the confession-bot core (`src/bot.js`)

Shallow embedding of the moderated sequence-numbering and rate-control core
of the Telegram confession bot: the sequence allocator, the persistent
cooldown guard, the comment rate limiter, the moderation workflow
(submit / approve / reject) and the comment aggregator.

Modelling conventions:
* Firestore documents become Lean structures; a collection is a function
  `String → Option Doc`; a Firestore transaction is an ordinary Lean
  function on the state (the store's transactional primitive is the
  semantics being assumed).
* JS millisecond timestamps (`Date.now()`) are `Int`; ISO-string timestamps
  (`new Date().toISOString()`) are modelled by the same clock value.
* JS strings are `List Char` (UTF-16 units; the inputs considered here are
  plain ASCII).
* External deliveries (`bot.telegram.sendMessage`, channel posts,
  `ctx.reply`) are fire-and-forget and are modelled as succeeding no-ops on
  the store.
-/

namespace ConfessionBot

/-- Pointwise update of a string-keyed collection (a Firestore `set` of a
whole document). -/
def upd {α : Type} (m : String → Option α) (k : String) (v : α) :
    String → Option α :=
  fun q => if q = k then some v else m q

/-! ## JS string primitives used by `sanitizeInput` and validation -/

/-- Whitespace removed by JS `String.prototype.trim` (ASCII part). -/
def isJsSpace (c : Char) : Bool :=
  c = ' ' || c = '\t' || c = '\n' || c = '\r' || c = '\x0b' || c = '\x0c'

/-- JS `text.trim()`. -/
def jsTrim (s : List Char) : List Char :=
  ((s.dropWhile isJsSpace).reverse.dropWhile isJsSpace).reverse

/-- A JS regex word character, `\w` = `[A-Za-z0-9_]`. -/
def isWordChar (c : Char) : Bool :=
  c.isAlpha || c.isDigit || c = '_'

/-- Case-insensitive prefix test (`pat` is given in lower case); models the
`i` flag of the sanitising regexes. -/
def ciStartsWith (pat s : List Char) : Bool :=
  ((s.take pat.length).map Char.toLower) == pat

theorem ciStartsWith_length {pat s : List Char}
    (h : ciStartsWith pat s = true) : pat.length ≤ s.length := by
  unfold ciStartsWith at h
  have heq : ((s.take pat.length).map Char.toLower) = pat := by
    exact beq_iff_eq.1 h
  have hl : ((s.take pat.length).map Char.toLower).length = pat.length := by
    rw [heq]
  simpa [List.length_take] using hl.symm.le

/-- The literal `</script>` (lower case). -/
def scriptClose : List Char := ['<', '/', 's', 'c', 'r', 'i', 'p', 't', '>']

/-- The literal `<script` (lower case). -/
def scriptOpen : List Char := ['<', 's', 'c', 'r', 'i', 'p', 't']

/-- Scan the body of a script tag: `[^<]*(?:(?!<\/script>)<[^<]*)*<\/script>`.
Characters other than `<` are consumed; at a `<` the scan either finds the
closing `</script>` (case-insensitively) and returns the remainder, or
consumes the `<` and goes on.  `none` when no closing tag follows. -/
def scanScriptBody : List Char → Option (List Char)
  | [] => none
  | c :: cs =>
    if c = '<' && ciStartsWith scriptClose (c :: cs) then some (cs.drop 8)
    else scanScriptBody cs

theorem scanScriptBody_length_lt :
    ∀ {l r : List Char}, scanScriptBody l = some r → r.length < l.length := by
  intro l
  induction l with
  | nil => intro r h; simp [scanScriptBody] at h
  | cons c cs ih =>
    intro r h
    unfold scanScriptBody at h
    split at h
    · have hr : r = cs.drop 8 := by exact (Option.some_inj.1 h).symm
      subst hr
      have hd := List.length_drop 8 cs
      simp only [hd, List.length_cons]
      omega
    · exact Nat.lt_trans (ih h) (Nat.lt_succ_self _)

/-- One attempted match of the script-tag regex
`<script\b[^<]*(?:(?!<\/script>)<[^<]*)*<\/script>` (flags `gi`) at the head
of `s`: `some rest` is the remainder after the full match.  The `\b` forces
the character after `<script` to be a non-word character. -/
def matchScriptTag (s : List Char) : Option (List Char) :=
  if ciStartsWith scriptOpen s then
    match s.drop 7 with
    | [] => none
    | c :: cs => if isWordChar c then none else scanScriptBody (c :: cs)
  else none

theorem matchScriptTag_length_lt {s r : List Char}
    (h : matchScriptTag s = some r) : r.length < s.length := by
  unfold matchScriptTag at h
  split at h
  · rename_i hp
    have h7 : 7 ≤ s.length := by simpa [scriptOpen] using ciStartsWith_length hp
    split at h
    · simp at h
    · rename_i c cs hd
      split at h
      · simp at h
      · have hlt : r.length < (c :: cs).length := scanScriptBody_length_lt h
        have hlen : (c :: cs).length = s.length - 7 := by
          rw [← hd, List.length_drop]
        omega
  · simp at h

/-- Scan loop of the script-tag replacement.  The recursion consumes at
least one character per step, so it is driven by a fuel bounded below by
the remaining length (the zero-fuel case is unreachable from the wrapper);
this keeps the function structurally recursive and kernel-computable. -/
def removeScriptTagsGo : Nat → List Char → List Char
  | 0, _ => []
  | _, [] => []
  | fuel + 1, c :: cs =>
    match matchScriptTag (c :: cs) with
    | some rest => removeScriptTagsGo fuel rest
    | none => c :: removeScriptTagsGo fuel cs

/-- `text.replace(/<script\b[^<]*(?:(?!<\/script>)<[^<]*)*<\/script>/gi, '')`:
left-to-right scan, removing each match and resuming after its end. -/
def removeScriptTags (s : List Char) : List Char :=
  removeScriptTagsGo s.length s

/-- The literal `javascript:` (lower case). -/
def jsProto : List Char := ['j', 'a', 'v', 'a', 's', 'c', 'r', 'i', 'p', 't', ':']

/-- Scan loop of the `javascript:` replacement (fuel-driven, see
`removeScriptTagsGo`). -/
def removeJavascriptProtocolGo : Nat → List Char → List Char
  | 0, _ => []
  | _, [] => []
  | fuel + 1, c :: cs =>
    if ciStartsWith jsProto (c :: cs) then
      removeJavascriptProtocolGo fuel (cs.drop 10)
    else c :: removeJavascriptProtocolGo fuel cs

/-- `text.replace(/javascript:/gi, '')`. -/
def removeJavascriptProtocol (s : List Char) : List Char :=
  removeJavascriptProtocolGo s.length s

/-- Remainder after the first `"` (the `[^"]*"` tail of the event-handler
regex); `none` if no closing quote exists. -/
def afterFirstQuote : List Char → Option (List Char)
  | [] => none
  | c :: cs => if c = '"' then some cs else afterFirstQuote cs

theorem afterFirstQuote_length_lt :
    ∀ {l r : List Char}, afterFirstQuote l = some r → r.length < l.length := by
  intro l
  induction l with
  | nil => intro r h; simp [afterFirstQuote] at h
  | cons c cs ih =>
    intro r h
    unfold afterFirstQuote at h
    split at h
    · have hr : r = cs := (Option.some_inj.1 h).symm
      subst hr; simp
    · exact Nat.lt_trans (ih h) (Nat.lt_succ_self _)

/-- One attempted match of `on\w+="[^"]*"` (flags `gi`) at the head of `s`. -/
def matchEventHandler (s : List Char) : Option (List Char) :=
  match s with
  | o :: n :: rest =>
    if o.toLower = 'o' && n.toLower = 'n' then
      if (rest.takeWhile isWordChar).length = 0 then none
      else
        match rest.drop (rest.takeWhile isWordChar).length with
        | '=' :: '"' :: rest2 => afterFirstQuote rest2
        | _ => none
    else none
  | _ => none

theorem matchEventHandler_length_lt {s r : List Char}
    (h : matchEventHandler s = some r) : r.length < s.length := by
  unfold matchEventHandler at h
  split at h
  · rename_i o n rest
    split at h
    · split at h
      · simp at h
      · split at h
        · rename_i rest2 hd
          have hq : r.length < rest2.length := afterFirstQuote_length_lt h
          have hdl : ('=' :: '"' :: rest2).length ≤ rest.length := by
            rw [← hd]
            exact (List.length_drop _ _).le.trans (Nat.sub_le _ _)
          simp only [List.length_cons] at hdl ⊢
          omega
        · simp at h
    · simp at h
  · simp at h

/-- Scan loop of the event-handler replacement (fuel-driven, see
`removeScriptTagsGo`). -/
def removeEventHandlersGo : Nat → List Char → List Char
  | 0, _ => []
  | _, [] => []
  | fuel + 1, c :: cs =>
    match matchEventHandler (c :: cs) with
    | some rest => removeEventHandlersGo fuel rest
    | none => c :: removeEventHandlersGo fuel cs

/-- `text.replace(/on\w+="[^"]*"/gi, '')`. -/
def removeEventHandlers (s : List Char) : List Char :=
  removeEventHandlersGo s.length s

/-- Remainder after the first `>` (the `[^>]*>` tail of the tag regex);
`none` if the tag is never closed. -/
def afterFirstGt : List Char → Option (List Char)
  | [] => none
  | c :: cs => if c = '>' then some cs else afterFirstGt cs

theorem afterFirstGt_length_lt :
    ∀ {l r : List Char}, afterFirstGt l = some r → r.length < l.length := by
  intro l
  induction l with
  | nil => intro r h; simp [afterFirstGt] at h
  | cons c cs ih =>
    intro r h
    unfold afterFirstGt at h
    split at h
    · have hr : r = cs := (Option.some_inj.1 h).symm
      subst hr; simp
    · exact Nat.lt_trans (ih h) (Nat.lt_succ_self _)

/-- Scan loop of the HTML-tag replacement (fuel-driven, see
`removeScriptTagsGo`). -/
def removeAngleTagsGo : Nat → List Char → List Char
  | 0, _ => []
  | _, [] => []
  | fuel + 1, c :: cs =>
    if c = '<' then
      match afterFirstGt cs with
      | some rest => removeAngleTagsGo fuel rest
      | none => c :: removeAngleTagsGo fuel cs
    else c :: removeAngleTagsGo fuel cs

/-- `text.replace(/<[^>]*>/g, '')`. -/
def removeAngleTags (s : List Char) : List Char :=
  removeAngleTagsGo s.length s

/-- `sanitizeInput` from `src/bot.js`: strip script tags, the `javascript:`
protocol, inline event handlers and all remaining HTML tags, then trim. -/
def sanitizeInput (text : List Char) : List Char :=
  jsTrim (removeAngleTags (removeEventHandlers (removeJavascriptProtocol
    (removeScriptTags text))))

/-! Each sanitising pass only deletes characters, so none of them can grow
the text.  These bounds feed the stored-text length invariant. -/

theorem removeScriptTagsGo_length_le :
    ∀ (fuel : Nat) (s : List Char),
      (removeScriptTagsGo fuel s).length ≤ s.length := by
  intro fuel
  induction fuel with
  | zero => intro s; cases s <;> simp [removeScriptTagsGo]
  | succ n ih =>
      intro s
      cases s with
      | nil => simp [removeScriptTagsGo]
      | cons c cs =>
          rw [removeScriptTagsGo]
          cases h : matchScriptTag (c :: cs) with
          | some rest =>
              simp only []
              have h1 := matchScriptTag_length_lt h
              have h2 := ih rest
              omega
          | none =>
              simp only [List.length_cons]
              have h2 := ih cs
              omega

theorem removeScriptTags_length_le (s : List Char) :
    (removeScriptTags s).length ≤ s.length :=
  removeScriptTagsGo_length_le s.length s

theorem removeJavascriptProtocolGo_length_le :
    ∀ (fuel : Nat) (s : List Char),
      (removeJavascriptProtocolGo fuel s).length ≤ s.length := by
  intro fuel
  induction fuel with
  | zero => intro s; cases s <;> simp [removeJavascriptProtocolGo]
  | succ n ih =>
      intro s
      cases s with
      | nil => simp [removeJavascriptProtocolGo]
      | cons c cs =>
          rw [removeJavascriptProtocolGo]
          by_cases h : ciStartsWith jsProto (c :: cs) = true
          · rw [if_pos h]
            have h1 := ih (cs.drop 10)
            have h2 := List.length_drop 10 cs
            simp only [List.length_cons]
            omega
          · rw [if_neg h]
            have h2 := ih cs
            simp only [List.length_cons]
            omega

theorem removeJavascriptProtocol_length_le (s : List Char) :
    (removeJavascriptProtocol s).length ≤ s.length :=
  removeJavascriptProtocolGo_length_le s.length s

theorem removeEventHandlersGo_length_le :
    ∀ (fuel : Nat) (s : List Char),
      (removeEventHandlersGo fuel s).length ≤ s.length := by
  intro fuel
  induction fuel with
  | zero => intro s; cases s <;> simp [removeEventHandlersGo]
  | succ n ih =>
      intro s
      cases s with
      | nil => simp [removeEventHandlersGo]
      | cons c cs =>
          rw [removeEventHandlersGo]
          cases h : matchEventHandler (c :: cs) with
          | some rest =>
              simp only []
              have h1 := matchEventHandler_length_lt h
              have h2 := ih rest
              omega
          | none =>
              simp only [List.length_cons]
              have h2 := ih cs
              omega

theorem removeEventHandlers_length_le (s : List Char) :
    (removeEventHandlers s).length ≤ s.length :=
  removeEventHandlersGo_length_le s.length s

theorem removeAngleTagsGo_length_le :
    ∀ (fuel : Nat) (s : List Char),
      (removeAngleTagsGo fuel s).length ≤ s.length := by
  intro fuel
  induction fuel with
  | zero => intro s; cases s <;> simp [removeAngleTagsGo]
  | succ n ih =>
      intro s
      cases s with
      | nil => simp [removeAngleTagsGo]
      | cons c cs =>
          rw [removeAngleTagsGo]
          by_cases hc : c = '<'
          · rw [if_pos hc]
            cases h : afterFirstGt cs with
            | some rest =>
                simp only [List.length_cons]
                have h1 := afterFirstGt_length_lt h
                have h2 := ih rest
                omega
            | none =>
                simp only [List.length_cons]
                have h2 := ih cs
                omega
          · rw [if_neg hc]
            simp only [List.length_cons]
            have h2 := ih cs
            omega

theorem removeAngleTags_length_le (s : List Char) :
    (removeAngleTags s).length ≤ s.length :=
  removeAngleTagsGo_length_le s.length s

theorem length_dropWhile_le {α : Type} (p : α → Bool) (l : List α) :
    (l.dropWhile p).length ≤ l.length := by
  induction l with
  | nil => simp
  | cons c cs ih =>
      rw [List.dropWhile_cons]
      by_cases h : p c = true
      · rw [if_pos h]; exact ih.trans (Nat.le_succ _)
      · rw [if_neg h]

theorem jsTrim_length_le (s : List Char) : (jsTrim s).length ≤ s.length := by
  unfold jsTrim
  calc (((s.dropWhile isJsSpace).reverse.dropWhile isJsSpace).reverse).length
      = ((s.dropWhile isJsSpace).reverse.dropWhile isJsSpace).length := by
        rw [List.length_reverse]
    _ ≤ (s.dropWhile isJsSpace).reverse.length := length_dropWhile_le _ _
    _ = (s.dropWhile isJsSpace).length := by rw [List.length_reverse]
    _ ≤ s.length := length_dropWhile_le _ _

theorem sanitizeInput_length_le (s : List Char) :
    (sanitizeInput s).length ≤ s.length := by
  unfold sanitizeInput
  exact (jsTrim_length_le _).trans ((removeAngleTags_length_le _).trans
    ((removeEventHandlers_length_le _).trans
      ((removeJavascriptProtocol_length_le _).trans
        (removeScriptTags_length_le _))))

/-- Scan loop of the hashtag matcher (fuel-driven, see
`removeScriptTagsGo`). -/
def extractHashtagsGo : Nat → List Char → List (List Char)
  | 0, _ => []
  | _, [] => []
  | fuel + 1, c :: cs =>
    if c = '#' && !(cs.takeWhile isWordChar).isEmpty then
      ('#' :: cs.takeWhile isWordChar) ::
        extractHashtagsGo fuel (cs.drop (cs.takeWhile isWordChar).length)
    else extractHashtagsGo fuel cs

/-- `extractHashtags` from `src/bot.js`: all matches of `/#[a-zA-Z0-9_]+/g`,
in order. -/
def extractHashtags (s : List Char) : List (List Char) :=
  extractHashtagsGo s.length s

/-! ## SequenceAllocator: `getNextConfessionNumber` (src/bot.js:80-112) -/

/-- The singleton `system/counters` document. -/
structure CounterDoc where
  confessionNumber : Nat
  lastAssigned : Int
  deriving DecidableEq

/-- The body of the `db.runTransaction` in `getNextConfessionNumber`: if no
counter document exists, create it with value 1 and return 1; otherwise
store and return `current + 1`.  Returns the allocated number together with
the written document. -/
def getNextConfessionNumber (now : Int) (counters : Option CounterDoc) :
    Nat × CounterDoc :=
  match counters with
  | none => (1, { confessionNumber := 1, lastAssigned := now })
  | some doc =>
      let next := doc.confessionNumber + 1
      (next, { confessionNumber := next, lastAssigned := now })

/-- `n` back-to-back successful allocations, threading the counter state;
returns the allocated numbers in call order and the final state. -/
def allocRun (now : Int) : Nat → Option CounterDoc → List Nat × Option CounterDoc
  | 0, st => ([], st)
  | n + 1, st =>
      let r := getNextConfessionNumber now st
      let rest := allocRun now n (some r.2)
      (r.1 :: rest.1, rest.2)

/-! ## CooldownGuard: `checkCooldown` / `setCooldown` (src/bot.js:115-135) -/

/-- A `user_cooldowns/{userId}` document: one `lastActionAt` millisecond
timestamp per action-kind field, plus `updatedAt`. -/
structure CooldownDoc where
  fields : String → Option Int
  updatedAt : Int

/-- `checkCooldown(userId, action, cooldownMs)` evaluated against the user's
cooldown document at clock `now`: allowed when no document or no timestamp
for this action exists (`if (!lastAction)`: a stored `0` is JS-falsy and
also treated as absent), otherwise allowed iff `now - lastAction >
cooldownMs`. -/
def checkCooldown (doc : Option CooldownDoc) (action : String)
    (cooldownMs now : Int) : Bool :=
  match doc with
  | none => true
  | some d =>
      match d.fields action with
      | none => true
      | some lastAction =>
          if lastAction = 0 then true
          else decide (now - lastAction > cooldownMs)

/-- `setCooldown(userId, action)`: merge-upsert `{ [action]: Date.now(),
updatedAt }` into the user's cooldown document — other action-kind fields
are kept (`{ merge: true }`). -/
def setCooldown (doc : Option CooldownDoc) (action : String) (now : Int) :
    CooldownDoc :=
  { fields := fun a =>
      if a = action then some now
      else match doc with
           | none => none
           | some d => d.fields a,
    updatedAt := now }

/-! ## RateLimiter: `checkCommentRateLimit` / `recordComment`
(src/bot.js:138-191) -/

/-- A `user_rate_limits/{userId}` document.  `commentTimestamps` is `none`
when the field is missing from the document. -/
structure RateLimitDoc where
  commentTimestamps : Option (List Int)
  updatedAt : Int
  deriving DecidableEq

/-- `checkCommentRateLimit(userId, windowMs, maxComments)` at clock `now`:
allowed when no document exists; otherwise filter the stored timestamps to
those within the window (`now - ts <= windowMs`) and allow iff strictly
fewer than `maxComments` remain.  A missing `commentTimestamps` field reads
as `[]` (`data.commentTimestamps || []`). -/
def checkCommentRateLimit (doc : Option RateLimitDoc)
    (now windowMs : Int) (maxComments : Nat) : Bool :=
  match doc with
  | none => true
  | some d =>
      decide
        (((d.commentTimestamps.getD []).filter
          (fun ts => now - ts ≤ windowMs)).length < maxComments)

/-- Firestore `FieldValue.arrayUnion` on a list of integers: append the
element unless an equal element is already present. -/
def arrayUnionInt (l : List Int) (x : Int) : List Int :=
  if x ∈ l then l else l ++ [x]

/-- The transaction inside `recordComment(userId)`: create the document with
`commentTimestamps: [now]` if absent, otherwise `arrayUnion(now)` into the
stored sequence (a missing field is created as `[now]`). -/
def recordCommentTx (doc : Option RateLimitDoc) (now : Int) : RateLimitDoc :=
  match doc with
  | none => { commentTimestamps := some [now], updatedAt := now }
  | some d =>
      { commentTimestamps := some (arrayUnionInt (d.commentTimestamps.getD []) now),
        updatedAt := now }

/-- The deferred cleanup (`setTimeout` body) in `recordComment`: rewrite the
stored sequence to the entries within a hard-coded 30000 ms window of the
cleanup-time clock.  When no document exists nothing happens; when the
`commentTimestamps` field is missing the `.filter` throws and the error is
caught, leaving the document unchanged. -/
def rateCleanup (doc : Option RateLimitDoc) (now : Int) : Option RateLimitDoc :=
  match doc with
  | none => none
  | some d =>
      match d.commentTimestamps with
      | none => some d
      | some l =>
          some { d with
            commentTimestamps := some (l.filter (fun ts => now - ts ≤ 30000)) }

/-! ## Data model: confessions, comment threads, user profiles -/

/-- The `status` field of a confession document. -/
inductive ConfStatus where
  | pending
  | approved
  | rejected
  deriving DecidableEq

/-- A `confessions/{confessionId}` document (as written by
`handleConfession` and mutated by approval / rejection / comments). -/
structure Confession where
  confessionId : String
  userId : Nat
  text : List Char
  status : ConfStatus
  createdAt : Int
  hashtags : List (List Char)
  totalComments : Nat
  confessionNumber : Option Nat
  approvedAt : Option Int
  rejectionReason : Option (List Char)
  rejectedAt : Option Int
  deriving DecidableEq

/-- One entry of a comment thread's `comments` array (the `commentData`
object built in `addComment`). -/
structure CommentRec where
  id : String
  text : List Char
  userId : Nat
  userName : String
  timestamp : Int
  createdAt : Int
  deriving DecidableEq

/-- A `comments/{confessionId}` document (the comment thread), created by
`createCommentSection`. -/
structure CommentThreadDoc where
  confessionId : String
  confessionNumber : Nat
  confessionText : List Char
  comments : List CommentRec
  totalComments : Nat
  deriving DecidableEq

/-- A `users/{userId}` document (the fields the modelled operations read or
write; presentation-only fields such as `username`, `bio`, `notifications`
and `tags` are omitted). -/
structure UserProfile where
  userId : Nat
  totalConfessions : Nat
  reputation : Int
  isActive : Bool
  isRegistered : Bool
  achievements : List String
  achievementCount : Nat
  followers : List Nat
  following : List Nat
  dailyStreak : Nat
  joinDate : Int
  deriving DecidableEq

/-- The Firestore state: one singleton counter document plus the five
string-keyed collections the core touches. -/
structure DB where
  counters : Option CounterDoc
  confessions : String → Option Confession
  commentsCol : String → Option CommentThreadDoc
  users : String → Option UserProfile
  cooldowns : String → Option CooldownDoc
  rateLimits : String → Option RateLimitDoc

/-- The empty store. -/
def initDB : DB :=
  { counters := none,
    confessions := fun _ => none,
    commentsCol := fun _ => none,
    users := fun _ => none,
    cooldowns := fun _ => none,
    rateLimits := fun _ => none }

/-- The default profile `getUserProfile` creates for a first-time user. -/
def defaultProfile (uid : Nat) (now : Int) : UserProfile :=
  { userId := uid, totalConfessions := 0, reputation := 0, isActive := true,
    isRegistered := false, achievements := [], achievementCount := 0,
    followers := [], following := [], dailyStreak := 0, joinDate := now }

/-- `getUserProfile(userId)`: read the user document, lazily creating the
default profile when none exists. -/
def getUserProfile (db : DB) (uid : Nat) (now : Int) : UserProfile × DB :=
  match db.users (toString uid) with
  | some p => (p, db)
  | none =>
      (defaultProfile uid now,
       { db with users := upd db.users (toString uid) (defaultProfile uid now) })

/-- `updateReputation(userId, points)`: field-level increment of
`reputation`; the `.update` on a missing document throws and the error is
caught, so the store is unchanged in that case. -/
def updateReputation (db : DB) (uid : Nat) (points : Int) : DB :=
  match db.users (toString uid) with
  | none => db
  | some p =>
      let p2 := { p with reputation := p.reputation + points }
      { db with users := upd db.users (toString uid) p2 }

/-- Firestore `FieldValue.arrayUnion` on a list of strings. -/
def arrayUnionStr (l : List String) (x : String) : List String :=
  if x ∈ l then l else l ++ [x]

/-- `awardAchievement(userId, achievementId, ...)`: `arrayUnion` the id and
increment `achievementCount` (errors on a missing document are caught). -/
def awardAchievement (db : DB) (uid : Nat) (achievementId : String) : DB :=
  match db.users (toString uid) with
  | none => db
  | some p =>
      let p2 := { p with
        achievements := arrayUnionStr p.achievements achievementId,
        achievementCount := p.achievementCount + 1 }
      { db with users := upd db.users (toString uid) p2 }

/-- `checkAchievements(userId)`: read the profile once and award each
not-yet-held achievement whose threshold the snapshot meets. -/
def checkAchievements (db : DB) (uid : Nat) (now : Int) : DB :=
  let pr := getUserProfile db uid now
  let profile := pr.1
  let db0 := pr.2
  let db1 :=
    if 1 ≤ profile.totalConfessions ∧
        profile.achievements.contains "first_confession" = false then
      awardAchievement db0 uid "first_confession"
    else db0
  let db2 :=
    if 10 ≤ profile.totalConfessions ∧
        profile.achievements.contains "ten_confessions" = false then
      awardAchievement db1 uid "ten_confessions"
    else db1
  let db3 :=
    if 50 ≤ profile.followers.length ∧
        profile.achievements.contains "fifty_followers" = false then
      awardAchievement db2 uid "fifty_followers"
    else db2
  if 7 ≤ profile.dailyStreak ∧
      profile.achievements.contains "week_streak" = false then
    awardAchievement db3 uid "week_streak"
  else db3

/-! ## ModerationWorkflow: submit (src/bot.js:1043-1071, 1578-1647) -/

/-- JS `Math.ceil(x / y)` for integer `x` and positive `y`. -/
def mathCeilDiv (x y : Int) : Int := -((-x).ediv y)

/-- Result of the submission flow, as reported to the user. -/
inductive SubmitOutcome where
  | blocked
  | rateLimited (waitSeconds : Int)
  | tooShort
  | tooLong
  | storeError
  | submitted (confessionId : String)
  deriving DecidableEq

/-- The confession id generated in `handleConfession`:
`` `confess_${userId}_${Date.now()}` ``. -/
def confessIdOf (uid : Nat) (now : Int) : String :=
  "confess_" ++ toString uid ++ "_" ++ toString now

/-- The pending-confession document written by `handleConfession`: sanitized
trimmed text, status `pending`, extracted hashtags, zero comments and no
`confessionNumber` field. -/
def pendingConfOf (uid : Nat) (text : List Char) (now : Int) : Confession :=
  { confessionId := confessIdOf uid now, userId := uid,
    text := jsTrim (sanitizeInput text), status := .pending, createdAt := now,
    hashtags := extractHashtags (sanitizeInput text), totalComments := 0,
    confessionNumber := none, approvedAt := none,
    rejectionReason := none, rejectedAt := none }

/-- `handleConfession(ctx, text)`: validate (trimmed length at least 5,
raw length at most 1000), sanitize, write the pending confession without a
`confessionNumber`, increment the author's `totalConfessions`, record the
cooldown, notify admins (external) and run the achievement check.  The
`users.update` throws on a missing profile; the surrounding `try` has by
then already written the confession document. -/
def handleConfession (db : DB) (uid : Nat) (text : List Char) (now : Int) :
    SubmitOutcome × DB :=
  if (jsTrim text).length < 5 then (.tooShort, db)
  else if 1000 < text.length then (.tooLong, db)
  else
    let confessionId := confessIdOf uid now
    let conf : Confession := pendingConfOf uid text now
    let db1 := { db with confessions := upd db.confessions confessionId conf }
    match db1.users (toString uid) with
    | none => (.storeError, db1)
    | some p =>
        let p2 := { p with totalConfessions := p.totalConfessions + 1 }
        let db2 := { db1 with users := upd db1.users (toString uid) p2 }
        let cd := setCooldown (db2.cooldowns (toString uid)) "confession" now
        let db3 := { db2 with cooldowns := upd db2.cooldowns (toString uid) cd }
        let db4 := checkAchievements db3 uid now
        (.submitted confessionId, db4)

/-- The submission flow `sendConfessionCommand` followed by
`handleConfession` (the prompt / reply round-trip is collapsed into one
operation evaluated at one clock `now`): blocked-account check, persistent
cooldown check with the remaining-wait computation
`Math.ceil((60000 - (Date.now() - lastSubmit)) / 1000)`, then validation
and the writes. -/
def submit (db : DB) (uid : Nat) (text : List Char) (now : Int) :
    SubmitOutcome × DB :=
  let pr := getUserProfile db uid now
  let profile := pr.1
  let db0 := pr.2
  if profile.isActive = false then (.blocked, db0)
  else if checkCooldown (db0.cooldowns (toString uid)) "confession" 60000 now
      = false then
    match db0.cooldowns (toString uid) with
    | some d =>
        (.rateLimited (mathCeilDiv
          (60000 - (now - ((d.fields "confession").getD 0))) 1000), db0)
    | none => handleConfession db0 uid text now
  else handleConfession db0 uid text now

/-! ## ModerationWorkflow: approve / reject (src/bot.js:1675-1770) -/

/-- Result of the `approve_` callback handler.  The source checks only that
the confession document exists; there is no status guard and hence no
invalid-state branch. -/
inductive ApproveOutcome where
  | notFound
  | approvedOk (number : Nat)
  deriving DecidableEq

/-- `createCommentSection(confessionId, number, confessionText)`: create the
`comments/{confessionId}` document with an empty comment array and zero
total. -/
def createCommentSection (db : DB) (confessionId : String) (number : Nat)
    (confessionText : List Char) : DB :=
  let thread : CommentThreadDoc :=
    { confessionId := confessionId, confessionNumber := number,
      confessionText := confessionText, comments := [], totalComments := 0 }
  { db with commentsCol := upd db.commentsCol confessionId thread }

/-- The `approve_(.+)` action (body after the admin check): read the
confession, allocate the next number, set `status: 'approved'` and
`confessionNumber`, post to the channel (external, modelled as succeeding)
which creates the comment-thread document via `createCommentSection`, award
+10 reputation, notify (external) and run the achievement check. -/
def approve (db : DB) (confessionId : String) (now : Int) :
    ApproveOutcome × DB :=
  match db.confessions confessionId with
  | none => (.notFound, db)
  | some confession =>
      let alloc := getNextConfessionNumber now db.counters
      let nextNumber := alloc.1
      let conf2 := { confession with
        status := .approved, confessionNumber := some nextNumber,
        approvedAt := some now }
      let db1 := { db with
        counters := some alloc.2,
        confessions := upd db.confessions confessionId conf2 }
      let db2 := createCommentSection db1 confessionId nextNumber confession.text
      let db3 := updateReputation db2 confession.userId 10
      let db4 := checkAchievements db3 confession.userId now
      (.approvedOk nextNumber, db4)

/-- `handleRejection(ctx, reason)`: if the confession document exists set
`status: 'rejected'` with the reason (no status guard in the source);
otherwise nothing happens. -/
def handleRejection (db : DB) (confessionId : String) (reason : List Char)
    (now : Int) : DB :=
  match db.confessions confessionId with
  | none => db
  | some c =>
      let c2 := { c with status := ConfStatus.rejected,
                          rejectionReason := some reason,
                          rejectedAt := some now }
      { db with confessions := upd db.confessions confessionId c2 }

/-! ## CommentAggregator: `addComment` (src/bot.js:1873-1944) -/

/-- Result of `addComment`, as reported to the user. -/
inductive CommentOutcome where
  | tooShort
  | rateLimited
  | notFound
  | txError
  | added
  deriving DecidableEq

/-- Firestore `FieldValue.arrayUnion` on the `comments` array: append the
record unless an equal record is already present. -/
def arrayUnionComment (l : List CommentRec) (x : CommentRec) : List CommentRec :=
  if x ∈ l then l else l ++ [x]

/-- The `commentData` object built in `addComment`: id
`` `comment_${Date.now()}_${userId}` ``, sanitized-and-trimmed text, author,
and the two clock renderings (`toLocaleString` / `toISOString`), both
modelled by the millisecond clock. -/
def commentDataOf (uid : Nat) (commentText : List Char) (userName : String)
    (now : Int) : CommentRec :=
  { id := "comment_" ++ toString now ++ "_" ++ toString uid,
    text := jsTrim (sanitizeInput commentText), userId := uid,
    userName := userName, timestamp := now, createdAt := now }

/-- `addComment(ctx, commentText)`: validate the length, check the comment
rate limit, look up the thread, then in one transaction `arrayUnion` the
comment record and increment both `totalComments` counters (the
`transaction.update` on a missing confession document aborts the whole
transaction, rolling back both writes); afterwards record the rate-limit
timestamp, award +5 reputation and run the achievement check. -/
def addComment (db : DB) (uid : Nat) (confessionId : String)
    (commentText : List Char) (userName : String) (now : Int) :
    CommentOutcome × DB :=
  if (jsTrim commentText).length < 3 then (.tooShort, db)
  else if checkCommentRateLimit (db.rateLimits (toString uid)) now 30000 3
      = false then (.rateLimited, db)
  else
    match db.commentsCol confessionId with
    | none => (.notFound, db)
    | some thread =>
        let commentData : CommentRec := commentDataOf uid commentText userName now
        match db.confessions confessionId with
        | none => (.txError, db)
        | some confession =>
            let thread2 := { thread with
              comments := arrayUnionComment thread.comments commentData,
              totalComments := thread.totalComments + 1 }
            let confession2 := { confession with
              totalComments := confession.totalComments + 1 }
            let db1 := { db with
              commentsCol := upd db.commentsCol confessionId thread2,
              confessions := upd db.confessions confessionId confession2 }
            let rl := recordCommentTx (db1.rateLimits (toString uid)) now
            let db2 := { db1 with rateLimits := upd db1.rateLimits (toString uid) rl }
            let db3 := updateReputation db2 uid 5
            let db4 := checkAchievements db3 uid now
            (.added, db4)

/-- The deferred rate-limit cleanup for one user (the `setTimeout` body of
`recordComment`, firing later as its own event). -/
def rateCleanupOp (db : DB) (uid : Nat) (now : Int) : DB :=
  { db with rateLimits := fun k =>
      if k = toString uid then rateCleanup (db.rateLimits k) now
      else db.rateLimits k }

/-! ## Traces of core operations -/

/-- One core operation of the bot, with the clock value at which it runs. -/
inductive Op where
  | submit (uid : Nat) (text : List Char) (now : Int)
  | approve (confessionId : String) (now : Int)
  | reject (confessionId : String) (reason : List Char) (now : Int)
  | addComment (uid : Nat) (confessionId : String) (text : List Char)
      (userName : String) (now : Int)
  | rateCleanup (uid : Nat) (now : Int)

/-- State transition of one operation (outcome discarded). -/
def step (db : DB) : Op → DB
  | .submit uid text now => (submit db uid text now).2
  | .approve confessionId now => (approve db confessionId now).2
  | .reject confessionId reason now => handleRejection db confessionId reason now
  | .addComment uid confessionId text userName now =>
      (addComment db uid confessionId text userName now).2
  | .rateCleanup uid now => rateCleanupOp db uid now

/-- States reachable from the empty store by core operations.  A submit is
required to generate a fresh confession id (`confess_${userId}_${Date.now()}`
ids do not repeat: within one user the clock strictly increases between
submissions). -/
inductive Reach : DB → Prop where
  | init : Reach initDB
  | submit {db : DB} (uid : Nat) (text : List Char) (now : Int) :
      Reach db → db.confessions (confessIdOf uid now) = none →
      Reach (step db (.submit uid text now))
  | approve {db : DB} (confessionId : String) (now : Int) :
      Reach db → Reach (step db (.approve confessionId now))
  | reject {db : DB} (confessionId : String) (reason : List Char) (now : Int) :
      Reach db → Reach (step db (.reject confessionId reason now))
  | addComment {db : DB} (uid : Nat) (confessionId : String)
      (text : List Char) (userName : String) (now : Int) :
      Reach db → Reach (step db (.addComment uid confessionId text userName now))
  | rateCleanup {db : DB} (uid : Nat) (now : Int) :
      Reach db → Reach (step db (.rateCleanup uid now))

/-! ## Derived observations on the state -/

/-- The stored timestamp sequence of a rate-limit document (`[]` when the
document or the field is missing), exactly as `checkCommentRateLimit`
reads it. -/
def timestampsOf : Option RateLimitDoc → List Int
  | none => []
  | some d => d.commentTimestamps.getD []

/-- Whether a comment-thread document exists for the confession id. -/
def hasThread (db : DB) (cid : String) : Bool :=
  (db.commentsCol cid).isSome

/-- Whether the confession document exists and carries an assigned sequence
number.  In this model a confession carries a number exactly when it has
been approved at least once: only `approve` writes `confessionNumber`, and
`handleRejection` does not clear it. -/
def hasNumber (db : DB) (cid : String) : Bool :=
  match db.confessions cid with
  | none => false
  | some c => c.confessionNumber.isSome

/-- `b` agrees with `a` on every collection except possibly `users`. -/
def UsersOnly (a b : DB) : Prop :=
  b.counters = a.counters ∧ b.confessions = a.confessions ∧
  b.commentsCol = a.commentsCol ∧ b.cooldowns = a.cooldowns ∧
  b.rateLimits = a.rateLimits

/-! ## Concrete stores used by counterexamples and witnesses -/

/-- A store holding just user `7` with a fresh default profile. -/
def dbU7 : DB :=
  { initDB with users := upd initDB.users "7" (defaultProfile 7 0) }

/-- A sample confession text. -/
def sampleText : List Char := "hello world".toList

/-- Store after user 7 submits `sampleText` at clock 100 and an admin
approves it at clock 200. -/
def dbApproved : DB :=
  step (step initDB (.submit 7 sampleText 100))
    (.approve (confessIdOf 7 100) 200)

/-- `dbApproved` after user 7 adds the comment "nice one" at clock 400. -/
def dbCommented : DB :=
  (addComment dbApproved 7 (confessIdOf 7 100) ("nice one".toList) "Al" 400).2

/-!
# Theorems

One theorem per claim (C1-C10), with counterexamples and witnesses where
required.
-/

/-! ## C1: the sequence allocator -/

theorem allocRun_some (now : Int) :
    ∀ (N k : Nat) (t : Int),
      (allocRun now N (some { confessionNumber := k, lastAssigned := t })).1
        = List.range' (k + 1) N := by
  intro N
  induction N with
  | zero => intro k t; rfl
  | succ n ih =>
      intro k t
      rw [List.range'_succ]
      show (k + 1) ::
          (allocRun now n (some { confessionNumber := k + 1, lastAssigned := now })).1
        = (k + 1) :: List.range' (k + 1 + 1) n
      rw [ih (k + 1) now]

/-- C1: starting from a counter holding `k`, `N` successive successful
`getNextConfessionNumber` transactions return exactly `k+1, …, k+N` in
order (strictly increasing, no duplicates, no gaps); every call stores a
counter exactly one larger than what it read (so the stored value never
decreases), and the first-ever call (no counter document) creates the
document with value 1 and returns 1. -/
theorem C1_sequence_allocator (now t : Int) (k N : Nat) :
    (allocRun now N (some { confessionNumber := k, lastAssigned := t })).1
      = List.range' (k + 1) N
    ∧ (allocRun now N none).1 = List.range' 1 N
    ∧ (∀ st : Option CounterDoc,
        (getNextConfessionNumber now st).1
          = ((getNextConfessionNumber now st).2).confessionNumber
        ∧ ((getNextConfessionNumber now st).2).confessionNumber
            = (match st with
               | none => 1
               | some d => d.confessionNumber + 1))
    ∧ getNextConfessionNumber now none
        = (1, { confessionNumber := 1, lastAssigned := now }) := by
  refine ⟨allocRun_some now N k t, ?_, ?_, rfl⟩
  · cases N with
    | zero => rfl
    | succ n =>
        show (1 :: (allocRun now n
            (some { confessionNumber := 1, lastAssigned := now })).1)
          = List.range' 1 (n + 1)
        rw [List.range'_succ, allocRun_some now n 1 now]
  · intro st
    cases st <;> exact ⟨rfl, rfl⟩

/-! ## C5: the cooldown guard -/

/-- C5: `checkCooldown` allows when no cooldown document or no timestamp
for the action kind is stored; for a stored (non-zero, i.e. any real clock)
timestamp it allows exactly when `now - lastActionAt` strictly exceeds the
window; it denies immediately after `setCooldown` at the same clock for any
non-negative window, and allows again once strictly more than the window
has elapsed. -/
theorem C5_cooldown (action : String) (w now : Int) :
    checkCooldown none action w now = true
    ∧ (∀ d : CooldownDoc, d.fields action = none →
        checkCooldown (some d) action w now = true)
    ∧ (∀ (d : CooldownDoc) (last : Int),
        d.fields action = some last → last ≠ 0 →
        (checkCooldown (some d) action w now = true ↔ now - last > w))
    ∧ (∀ doc : Option CooldownDoc, 0 ≤ w → now ≠ 0 →
        checkCooldown (some (setCooldown doc action now)) action w now = false)
    ∧ (∀ (doc : Option CooldownDoc) (later : Int), now ≠ 0 →
        later - now > w →
        checkCooldown (some (setCooldown doc action now)) action w later = true) := by
  refine ⟨rfl, ?_, ?_, ?_, ?_⟩
  · intro d hd
    simp [checkCooldown, hd]
  · intro d last hd hlast
    simp [checkCooldown, hd, hlast]
  · intro doc hw hnow
    have hf : (setCooldown doc action now).fields action = some now := by
      simp [setCooldown]
    simp [checkCooldown, hf, hnow]
    omega
  · intro doc later hnow hlater
    have hf : (setCooldown doc action now).fields action = some now := by
      simp [setCooldown]
    simp [checkCooldown, hf, hnow]
    omega

/-- C5 witness: recording a confession cooldown at clock 1000 denies a
60000 ms window at the same instant and allows at clock 62000. -/
theorem C5_cooldown_witness :
    checkCooldown (some (setCooldown none "confession" 1000)) "confession"
      60000 1000 = false
    ∧ checkCooldown (some (setCooldown none "confession" 1000)) "confession"
      60000 62000 = true := by
  constructor
  · exact (C5_cooldown "confession" 60000 1000).2.2.2.1 none (by decide) (by decide)
  · exact (C5_cooldown "confession" 60000 1000).2.2.2.2 none 62000 (by decide)
      (by decide)

/-! ## C9: `setCooldown` is a field-level merge -/

/-- C9: `setCooldown` upserts only the timestamp of its own action kind:
every other action kind stored for the user reads exactly as before
(whether or not a document existed), and the written kind reads as `now`. -/
theorem C9_setCooldown_merge (doc : Option CooldownDoc)
    (action other : String) (now : Int) (h : other ≠ action) :
    (setCooldown doc action now).fields other
      = (match doc with
         | none => none
         | some d => d.fields other)
    ∧ (setCooldown doc action now).fields action = some now := by
  constructor
  · simp [setCooldown, h]
  · simp [setCooldown]

/-- C9 witness: merging a confession cooldown at clock 77 into a document
holding a comment cooldown at clock 5 keeps the comment timestamp. -/
theorem C9_setCooldown_merge_witness :
    (setCooldown
      (some { fields := fun a => if a = "comment" then some 5 else none,
              updatedAt := 0 }) "confession" 77).fields "comment" = some 5
    ∧ (setCooldown
      (some { fields := fun a => if a = "comment" then some 5 else none,
              updatedAt := 0 }) "confession" 77).fields "confession"
      = some 77 := by
  have h := C9_setCooldown_merge
    (some { fields := fun a => if a = "comment" then some 5 else none,
            updatedAt := 0 }) "confession" "comment" 77 (by decide)
  exact ⟨h.1.trans (by decide), h.2⟩

/-! ## Frame lemmas: profile-related helpers touch only `users` -/

theorem usersOnly_refl (a : DB) : UsersOnly a a :=
  ⟨rfl, rfl, rfl, rfl, rfl⟩

theorem usersOnly_trans {a b c : DB} (h1 : UsersOnly a b)
    (h2 : UsersOnly b c) : UsersOnly a c :=
  ⟨h2.1.trans h1.1, h2.2.1.trans h1.2.1, h2.2.2.1.trans h1.2.2.1,
   h2.2.2.2.1.trans h1.2.2.2.1, h2.2.2.2.2.trans h1.2.2.2.2⟩

theorem usersOnly_getUserProfile (db : DB) (uid : Nat) (now : Int) :
    UsersOnly db (getUserProfile db uid now).2 := by
  unfold getUserProfile
  split <;> exact ⟨rfl, rfl, rfl, rfl, rfl⟩

theorem usersOnly_awardAchievement (db : DB) (uid : Nat) (aid : String) :
    UsersOnly db (awardAchievement db uid aid) := by
  unfold awardAchievement
  split <;> exact ⟨rfl, rfl, rfl, rfl, rfl⟩

theorem usersOnly_updateReputation (db : DB) (uid : Nat) (points : Int) :
    UsersOnly db (updateReputation db uid points) := by
  unfold updateReputation
  split <;> exact ⟨rfl, rfl, rfl, rfl, rfl⟩

theorem usersOnly_ite_award {a x : DB} (c : Prop) [Decidable c]
    (uid : Nat) (aid : String) (h : UsersOnly a x) :
    UsersOnly a (if c then awardAchievement x uid aid else x) := by
  split
  · exact usersOnly_trans h (usersOnly_awardAchievement x uid aid)
  · exact h

theorem usersOnly_checkAchievements (db : DB) (uid : Nat) (now : Int) :
    UsersOnly db (checkAchievements db uid now) := by
  unfold checkAchievements
  exact usersOnly_ite_award _ _ _ (usersOnly_ite_award _ _ _
    (usersOnly_ite_award _ _ _ (usersOnly_ite_award _ _ _
      (usersOnly_getUserProfile db uid now))))

/-! ## Frame lemmas: which operations touch `rateLimits` -/

theorem rateLimits_handleConfession (db : DB) (uid : Nat) (text : List Char)
    (now : Int) :
    (handleConfession db uid text now).2.rateLimits = db.rateLimits := by
  unfold handleConfession
  split
  · rfl
  · split
    · rfl
    · dsimp only
      split
      · rfl
      · exact ((usersOnly_checkAchievements _ _ _).2.2.2.2).trans rfl

theorem rateLimits_submit (db : DB) (uid : Nat) (text : List Char)
    (now : Int) :
    (submit db uid text now).2.rateLimits = db.rateLimits := by
  unfold submit
  dsimp only
  split
  · exact (usersOnly_getUserProfile db uid now).2.2.2.2
  · split
    · split
      · exact (usersOnly_getUserProfile db uid now).2.2.2.2
      · exact (rateLimits_handleConfession _ _ _ _).trans
          (usersOnly_getUserProfile db uid now).2.2.2.2
    · exact (rateLimits_handleConfession _ _ _ _).trans
        (usersOnly_getUserProfile db uid now).2.2.2.2

theorem rateLimits_approve (db : DB) (cid : String) (now : Int) :
    (approve db cid now).2.rateLimits = db.rateLimits := by
  unfold approve
  split
  · rfl
  · dsimp only
    exact ((usersOnly_checkAchievements _ _ _).2.2.2.2).trans
      (((usersOnly_updateReputation _ _ _).2.2.2.2).trans rfl)

theorem rateLimits_reject (db : DB) (cid : String) (reason : List Char)
    (now : Int) :
    (handleRejection db cid reason now).rateLimits = db.rateLimits := by
  unfold handleRejection
  split <;> rfl

theorem rateLimits_addComment_cases (db : DB) (uid : Nat) (cid : String)
    (text : List Char) (userName : String) (now : Int) :
    (addComment db uid cid text userName now).2.rateLimits = db.rateLimits
    ∨ (addComment db uid cid text userName now).2.rateLimits
      = upd db.rateLimits (toString uid)
          (recordCommentTx (db.rateLimits (toString uid)) now) := by
  unfold addComment
  split
  · exact Or.inl rfl
  · split
    · exact Or.inl rfl
    · split
      · exact Or.inl rfl
      · dsimp only
        split
        · exact Or.inl rfl
        · exact Or.inr (((usersOnly_checkAchievements _ _ _).2.2.2.2).trans
            (((usersOnly_updateReputation _ _ _).2.2.2.2).trans rfl))

/-! ## C6: the comment rate limiter -/

theorem filter_subpred {p q : Int → Bool}
    (h : ∀ x, p x = true → q x = true) :
    ∀ l : List Int, (l.filter q).filter p = l.filter p := by
  intro l
  induction l with
  | nil => rfl
  | cons a t ih =>
      by_cases hq : q a = true
      · by_cases hp : p a = true
        · simp [List.filter_cons, hq, hp, ih]
        · simp [List.filter_cons, hq, hp, ih]
      · have hp : ¬ p a = true := fun hpa => hq (h a hpa)
        simp [List.filter_cons, hq, hp, ih]

/-- C6: `checkCommentRateLimit` allows exactly when strictly fewer than
`maxComments` of the stored timestamps lie within the window of `now`; this
answer is computed by re-filtering on every read, so it is unchanged by the
deferred compaction (for the windows actually used, at most the 30000 ms
compaction window, and a cleanup that ran at or before the read); and with
the configured `maxComments = 3`, `windowMs = 30000`, after three recorded
comments a further comment is blocked while all three are within the
window, and allowed again once the first has aged out. -/
theorem C6_comment_rate_limiter (now w : Int) (maxComments : Nat) :
    (∀ doc : Option RateLimitDoc, 0 < maxComments →
      (checkCommentRateLimit doc now w maxComments = true ↔
        ((timestampsOf doc).filter (fun ts => now - ts ≤ w)).length
          < maxComments))
    ∧ (∀ (d : RateLimitDoc) (tClean : Int), w ≤ 30000 → tClean ≤ now →
        checkCommentRateLimit (rateCleanup (some d) tClean) now w maxComments
          = checkCommentRateLimit (some d) now w maxComments)
    ∧ (∀ t1 t2 t3 : Int, t1 < t2 → t2 < t3 →
        (now - t1 ≤ 30000 → now - t3 ≤ 30000 →
          checkCommentRateLimit
            (some (recordCommentTx (some (recordCommentTx
              (some (recordCommentTx none t1)) t2)) t3)) now 30000 3 = false)
        ∧ (30000 < now - t1 → now - t2 ≤ 30000 →
          checkCommentRateLimit
            (some (recordCommentTx (some (recordCommentTx
              (some (recordCommentTx none t1)) t2)) t3)) now 30000 3 = true)) := by
  refine ⟨?_, ?_, ?_⟩
  · intro doc hmax
    cases doc with
    | none => simp [checkCommentRateLimit, timestampsOf, hmax]
    | some d => simp [checkCommentRateLimit, timestampsOf]
  · intro d tClean hw hcl
    cases hts : d.commentTimestamps with
    | none => simp [rateCleanup, hts]
    | some l =>
        have hsub : ∀ x : Int,
            (decide (now - x ≤ w)) = true → (decide (tClean - x ≤ 30000)) = true := by
          intro x hx
          have hx2 : now - x ≤ w := of_decide_eq_true hx
          exact decide_eq_true (by omega)
        simp only [rateCleanup, hts, checkCommentRateLimit, Option.getD_some]
        exact congrArg (fun ll : List Int => decide (ll.length < maxComments))
          (filter_subpred hsub l)
  · intro t1 t2 t3 h12 h23
    have hne21 : ¬ t2 = t1 := by omega
    have hne31 : ¬ (t3 = t1 ∨ t3 = t2) := by omega
    have hlist : (recordCommentTx (some (recordCommentTx
        (some (recordCommentTx none t1)) t2)) t3).commentTimestamps
        = some [t1, t2, t3] := by
      simp [recordCommentTx, arrayUnionInt, hne21, hne31]
    constructor
    · intro ha hc
      have e1 : (decide (now - t1 ≤ 30000)) = true := decide_eq_true ha
      have e2 : (decide (now - t2 ≤ 30000)) = true := decide_eq_true (by omega)
      have e3 : (decide (now - t3 ≤ 30000)) = true := decide_eq_true hc
      have f3 : List.filter (fun ts => decide (now - ts ≤ 30000)) [t3]
          = t3 :: List.filter (fun ts => decide (now - ts ≤ 30000)) [] :=
        List.filter_cons_of_pos e3
      have f2 : List.filter (fun ts => decide (now - ts ≤ 30000)) [t2, t3]
          = t2 :: List.filter (fun ts => decide (now - ts ≤ 30000)) [t3] :=
        List.filter_cons_of_pos e2
      have f1 : List.filter (fun ts => decide (now - ts ≤ 30000)) [t1, t2, t3]
          = t1 :: List.filter (fun ts => decide (now - ts ≤ 30000)) [t2, t3] :=
        List.filter_cons_of_pos e1
      simp only [checkCommentRateLimit, hlist, Option.getD_some, f1, f2, f3]
      simp
    · intro ha hb
      have e1 : (decide (now - t1 ≤ 30000)) = false := decide_eq_false (by omega)
      have e2 : (decide (now - t2 ≤ 30000)) = true := decide_eq_true hb
      have e3 : (decide (now - t3 ≤ 30000)) = true := decide_eq_true (by omega)
      have f3 : List.filter (fun ts => decide (now - ts ≤ 30000)) [t3]
          = t3 :: List.filter (fun ts => decide (now - ts ≤ 30000)) [] :=
        List.filter_cons_of_pos e3
      have f2 : List.filter (fun ts => decide (now - ts ≤ 30000)) [t2, t3]
          = t2 :: List.filter (fun ts => decide (now - ts ≤ 30000)) [t3] :=
        List.filter_cons_of_pos e2
      have f1 : List.filter (fun ts => decide (now - ts ≤ 30000)) [t1, t2, t3]
          = List.filter (fun ts => decide (now - ts ≤ 30000)) [t2, t3] :=
        List.filter_cons_of_neg (ne_true_of_eq_false e1)
      simp only [checkCommentRateLimit, hlist, Option.getD_some, f1, f2, f3]
      simp

/-- C6 witness: a cleanup at clock 10000 does not change the answer read at
clock 20000; three comments at clocks 1000/2000/3000 block a fourth at
clock 10000 and allow again at clock 32000 (the first has aged out). -/
theorem C6_comment_rate_limiter_witness :
    checkCommentRateLimit
      (rateCleanup (some { commentTimestamps := some [1000, 2000, 3000],
                           updatedAt := 3000 }) 10000) 20000 25000 3
      = checkCommentRateLimit
        (some { commentTimestamps := some [1000, 2000, 3000],
                updatedAt := 3000 }) 20000 25000 3
    ∧ checkCommentRateLimit
        (some (recordCommentTx (some (recordCommentTx
          (some (recordCommentTx none 1000)) 2000)) 3000)) 10000 30000 3 = false
    ∧ checkCommentRateLimit
        (some (recordCommentTx (some (recordCommentTx
          (some (recordCommentTx none 1000)) 2000)) 3000)) 32000 30000 3 = true := by
  refine ⟨?_, ?_, ?_⟩
  · exact (C6_comment_rate_limiter 20000 25000 3).2.1
      { commentTimestamps := some [1000, 2000, 3000], updatedAt := 3000 }
      10000 (by decide) (by decide)
  · exact ((C6_comment_rate_limiter 10000 30000 3).2.2 1000 2000 3000
      (by decide) (by decide)).1 (by decide) (by decide)
  · exact ((C6_comment_rate_limiter 32000 30000 3).2.2 1000 2000 3000
      (by decide) (by decide)).2 (by decide) (by decide)

/-! ## C10: no duplicate rate-limit timestamps -/

theorem nodup_arrayUnionInt {l : List Int} {x : Int} (h : l.Nodup) :
    (arrayUnionInt l x).Nodup := by
  unfold arrayUnionInt
  split
  · exact h
  · rename_i hx
    simp [List.nodup_append, h, hx]

theorem nodup_timestamps_recordCommentTx {doc : Option RateLimitDoc}
    (now : Int) (h : (timestampsOf doc).Nodup) :
    (timestampsOf (some (recordCommentTx doc now))).Nodup := by
  cases doc with
  | none => simp [timestampsOf, recordCommentTx]
  | some d =>
      simpa [timestampsOf, recordCommentTx] using
        nodup_arrayUnionInt (by simpa [timestampsOf] using h)

theorem nodup_timestamps_rateCleanup {doc : Option RateLimitDoc}
    (now : Int) (h : (timestampsOf doc).Nodup) :
    (timestampsOf (rateCleanup doc now)).Nodup := by
  cases doc with
  | none => simpa [rateCleanup] using h
  | some d =>
      cases hts : d.commentTimestamps with
      | none => simpa [rateCleanup, hts] using h
      | some l =>
          have hl : l.Nodup := by simpa [timestampsOf, hts] using h
          simpa [rateCleanup, hts, timestampsOf] using hl.filter _

theorem reach_rate_nodup : ∀ {db : DB}, Reach db →
    ∀ u : String, (timestampsOf (db.rateLimits u)).Nodup := by
  intro db h
  induction h with
  | init => intro u; simp [initDB, timestampsOf]
  | @submit db uid text now hr hfresh ih =>
      intro u
      simp only [step, rateLimits_submit]
      exact ih u
  | @approve db cid now hr ih =>
      intro u
      simp only [step, rateLimits_approve]
      exact ih u
  | @reject db cid reason now hr ih =>
      intro u
      simp only [step, rateLimits_reject]
      exact ih u
  | @addComment db uid cid text userName now hr ih =>
      intro u
      simp only [step]
      rcases rateLimits_addComment_cases db uid cid text userName now with hc | hc
      · rw [hc]; exact ih u
      · rw [hc]
        unfold upd
        by_cases hu : u = toString uid
        · rw [if_pos hu]
          exact nodup_timestamps_recordCommentTx now (ih _)
        · rw [if_neg hu]; exact ih u
  | @rateCleanup db uid now hr ih =>
      intro u
      simp only [step]
      unfold rateCleanupOp
      dsimp only
      by_cases hu : u = toString uid
      · rw [if_pos hu]
        exact nodup_timestamps_rateCleanup now (ih u)
      · rw [if_neg hu]; exact ih u

/-- C10: in every reachable store no per-user comment-timestamp sequence
contains a duplicate value, and recording a comment whose millisecond
timestamp is already stored leaves the sequence unchanged (the array-union
collapses it), so two comments in the same millisecond contribute one
entry. -/
theorem C10_rate_window_nodup :
    (∀ db : DB, Reach db → ∀ u : String,
      (timestampsOf (db.rateLimits u)).Nodup)
    ∧ (∀ (d : RateLimitDoc) (l : List Int) (now : Int),
        d.commentTimestamps = some l → now ∈ l →
        (recordCommentTx (some d) now).commentTimestamps = some l) := by
  constructor
  · intro db h
    exact reach_rate_nodup h
  · intro d l now hd hmem
    simp [recordCommentTx, hd, arrayUnionInt, hmem]

/-- C10 witness: the store reached by a submission, an approval and a
comment at clock 400 has no duplicate timestamps, and re-recording the
already-present timestamp 400 leaves `[400]` unchanged. -/
theorem C10_rate_window_nodup_witness :
    (timestampsOf (dbCommented.rateLimits "7")).Nodup
    ∧ (recordCommentTx
        (some { commentTimestamps := some [400], updatedAt := 400 })
        400).commentTimestamps = some [400] := by
  have h1 : Reach (step initDB (.submit 7 sampleText 100)) :=
    Reach.submit 7 sampleText 100 Reach.init rfl
  have h2 : Reach dbApproved :=
    Reach.approve (confessIdOf 7 100) 200 h1
  have h3 : Reach dbCommented :=
    Reach.addComment 7 (confessIdOf 7 100) ("nice one".toList) "Al" 400 h2
  constructor
  · exact C10_rate_window_nodup.1 dbCommented h3 "7"
  · exact C10_rate_window_nodup.2 _ [400] 400 rfl (by decide)

/-! ## C2: second approval of the same confession -/

/-- C2 (exhibit of the code bug): the `approve_` handler checks only that
the confession document exists — there is no status guard, and its outcome
type has no invalid-state case.  Starting from a store in which confession
`confess_7_100` is already `approved` with number 1 (and the counter at 1),
a second `Approve` call succeeds, allocates the fresh number 2, bumps the
counter, and overwrites the stored confession's `confessionNumber`,
contradicting the claimed `InvalidStateError` rejection and the
assigned-at-most-once invariant. -/
theorem C2_double_approve_reallocates :
    ((dbApproved.confessions (confessIdOf 7 100)).map Confession.status
      = some .approved)
    ∧ ((dbApproved.confessions (confessIdOf 7 100)).map
        Confession.confessionNumber = some (some 1))
    ∧ (approve dbApproved (confessIdOf 7 100) 300).1 = .approvedOk 2
    ∧ (((approve dbApproved (confessIdOf 7 100) 300).2.confessions
        (confessIdOf 7 100)).map Confession.confessionNumber = some (some 2))
    ∧ ((approve dbApproved (confessIdOf 7 100) 300).2.counters
        = some { confessionNumber := 2, lastAssigned := 300 }) := by
  decide

/-! ## C3: the comment aggregator -/

/-- C3 (amended): every successful `AddComment` increments
`CommentThread.totalComments` and `Confession.totalComments` by exactly 1
in one transaction — the two counters move together, and remain equal
whenever they were equal before; the comment record is appended to the
thread's sequence unless an identical record is already present, in which
case the array-union leaves the sequence unchanged (so the sequence length
equals the counter only while all added records are distinct). -/
theorem C3_addComment_effects (db : DB) (uid : Nat) (cid : String)
    (ctext : List Char) (uname : String) (now : Int)
    (thread : CommentThreadDoc) (confession : Confession)
    (ht : db.commentsCol cid = some thread)
    (hc : db.confessions cid = some confession)
    (hlen : ¬ (jsTrim ctext).length < 3)
    (hrate : checkCommentRateLimit (db.rateLimits (toString uid)) now 30000 3
      = true) :
    (addComment db uid cid ctext uname now).1 = .added
    ∧ ((addComment db uid cid ctext uname now).2.commentsCol cid).map
        CommentThreadDoc.totalComments = some (thread.totalComments + 1)
    ∧ ((addComment db uid cid ctext uname now).2.confessions cid).map
        Confession.totalComments = some (confession.totalComments + 1)
    ∧ (commentDataOf uid ctext uname now ∉ thread.comments →
        ((addComment db uid cid ctext uname now).2.commentsCol cid).map
          CommentThreadDoc.comments
          = some (thread.comments ++ [commentDataOf uid ctext uname now]))
    ∧ (commentDataOf uid ctext uname now ∈ thread.comments →
        ((addComment db uid cid ctext uname now).2.commentsCol cid).map
          CommentThreadDoc.comments = some thread.comments)
    ∧ (thread.totalComments = confession.totalComments →
        ((addComment db uid cid ctext uname now).2.commentsCol cid).map
          CommentThreadDoc.totalComments
          = ((addComment db uid cid ctext uname now).2.confessions cid).map
            (fun c => c.totalComments)) := by
  have hrate2 : ¬ (checkCommentRateLimit (db.rateLimits (toString uid))
      now 30000 3 = false) := by
    rw [hrate]
    intro h
    exact absurd h (by decide)
  unfold addComment
  rw [if_neg hlen, if_neg hrate2, ht, hc]
  dsimp only
  have hcol := (usersOnly_checkAchievements
    (updateReputation { db with
        commentsCol := upd db.commentsCol cid
          ({ thread with
             comments := arrayUnionComment thread.comments
               (commentDataOf uid ctext uname now),
             totalComments := thread.totalComments + 1 }),
        confessions := upd db.confessions cid
          ({ confession with
             totalComments := confession.totalComments + 1 }),
        rateLimits := upd db.rateLimits (toString uid)
          (recordCommentTx (db.rateLimits (toString uid)) now) } uid 5)
    uid now)
  have hrep := (usersOnly_updateReputation { db with
        commentsCol := upd db.commentsCol cid
          ({ thread with
             comments := arrayUnionComment thread.comments
               (commentDataOf uid ctext uname now),
             totalComments := thread.totalComments + 1 }),
        confessions := upd db.confessions cid
          ({ confession with
             totalComments := confession.totalComments + 1 }),
        rateLimits := upd db.rateLimits (toString uid)
          (recordCommentTx (db.rateLimits (toString uid)) now) } uid 5)
  refine ⟨rfl, ?_, ?_, ?_, ?_, ?_⟩
  · rw [hcol.2.2.1, hrep.2.2.1]
    simp [upd]
  · rw [hcol.2.1, hrep.2.1]
    simp [upd]
  · intro hmem
    rw [hcol.2.2.1, hrep.2.2.1]
    simp [upd, arrayUnionComment, hmem]
  · intro hmem
    rw [hcol.2.2.1, hrep.2.2.1]
    simp [upd, arrayUnionComment, hmem]
  · intro heq
    rw [hcol.2.2.1, hrep.2.2.1, hcol.2.1, hrep.2.1]
    simp [upd, heq]

/-- C3 witness: adding a fresh comment to the approved confession's empty
thread yields outcome `added`, thread total 1, confession total 1, and the
one-element comment sequence. -/
theorem C3_addComment_effects_witness :
    (addComment dbApproved 7 (confessIdOf 7 100) ("nice one".toList) "Al"
      400).1 = .added
    ∧ ((addComment dbApproved 7 (confessIdOf 7 100) ("nice one".toList) "Al"
        400).2.commentsCol (confessIdOf 7 100)).map
        CommentThreadDoc.totalComments = some 1
    ∧ ((addComment dbApproved 7 (confessIdOf 7 100) ("nice one".toList) "Al"
        400).2.confessions (confessIdOf 7 100)).map
        Confession.totalComments = some 1 := by
  have h := C3_addComment_effects dbApproved 7 (confessIdOf 7 100)
    ("nice one".toList) "Al" 400
    { confessionId := confessIdOf 7 100, confessionNumber := 1,
      confessionText := sampleText, comments := [], totalComments := 0 }
    ((dbApproved.confessions (confessIdOf 7 100)).getD
      { confessionId := "", userId := 0, text := [], status := .pending,
        createdAt := 0, hashtags := [], totalComments := 0,
        confessionNumber := none, approvedAt := none,
        rejectionReason := none, rejectedAt := none })
    (by decide) (by decide) (by decide) (by decide)
  exact ⟨h.1, h.2.1, h.2.2.1⟩

/-- C3 counterexample: two identical successful `AddComment` calls (same
user, text and millisecond clock).  Both report success, but the
array-union collapses the second record: the comment sequence still has
length 1 while both counters read 2 — refuting "appends exactly one
comment" and the claimed equality of `CommentThread.total` with the length
of the comment sequence. -/
theorem C3_counterexample :
    (addComment dbCommented 7 (confessIdOf 7 100) ("nice one".toList) "Al"
      400).1 = .added
    ∧ ((addComment dbCommented 7 (confessIdOf 7 100) ("nice one".toList) "Al"
        400).2.commentsCol (confessIdOf 7 100)).map
        (fun t => t.comments.length) = some 1
    ∧ ((addComment dbCommented 7 (confessIdOf 7 100) ("nice one".toList) "Al"
        400).2.commentsCol (confessIdOf 7 100)).map
        CommentThreadDoc.totalComments = some 2
    ∧ ((addComment dbCommented 7 (confessIdOf 7 100) ("nice one".toList) "Al"
        400).2.confessions (confessIdOf 7 100)).map
        Confession.totalComments = some 2 := by
  decide

/-! ## Reduction lemmas for the submission flow -/

theorem getUserProfile_of_some {db : DB} {uid : Nat} {p : UserProfile}
    (now : Int) (hu : db.users (toString uid) = some p) :
    getUserProfile db uid now = (p, db) := by
  unfold getUserProfile
  rw [hu]

theorem submit_eq_handleConfession {db : DB} {uid : Nat} {p : UserProfile}
    (text : List Char) (now : Int)
    (hu : db.users (toString uid) = some p) (hact : p.isActive = true)
    (hcool : checkCooldown (db.cooldowns (toString uid)) "confession" 60000 now
      = true) :
    submit db uid text now = handleConfession db uid text now := by
  unfold submit
  rw [getUserProfile_of_some now hu]
  dsimp only
  rw [if_neg (by rw [hact]; exact fun h => absurd h (by decide)),
      if_neg (by rw [hcool]; exact fun h => absurd h (by decide))]

theorem handleConfession_tooShort {db : DB} {uid : Nat} {text : List Char}
    {now : Int} (h5 : (jsTrim text).length < 5) :
    handleConfession db uid text now = (.tooShort, db) := by
  unfold handleConfession
  rw [if_pos h5]

theorem handleConfession_tooLong {db : DB} {uid : Nat} {text : List Char}
    {now : Int} (h5 : ¬ (jsTrim text).length < 5)
    (h1000 : 1000 < text.length) :
    handleConfession db uid text now = (.tooLong, db) := by
  unfold handleConfession
  rw [if_neg h5, if_pos h1000]

theorem handleConfession_success {db : DB} {uid : Nat} {text : List Char}
    {now : Int} {p : UserProfile} (hu : db.users (toString uid) = some p)
    (h5 : ¬ (jsTrim text).length < 5) (h1000 : ¬ 1000 < text.length) :
    handleConfession db uid text now
      = (.submitted (confessIdOf uid now),
         checkAchievements
           { db with
             confessions :=
               upd db.confessions (confessIdOf uid now) (pendingConfOf uid text now),
             users :=
               upd db.users (toString uid)
                 ({ p with totalConfessions := p.totalConfessions + 1 }),
             cooldowns :=
               upd db.cooldowns (toString uid)
                 (setCooldown (db.cooldowns (toString uid)) "confession" now) }
           uid now) := by
  unfold handleConfession
  rw [if_neg h5, if_neg h1000]
  dsimp only
  rw [hu]

/-! ## `totalConfessions` is untouched by the achievement check -/

theorem totalConfessions_awardAchievement (db : DB) (uid : Nat) (aid : String)
    (k : String) :
    ((awardAchievement db uid aid).users k).map UserProfile.totalConfessions
      = (db.users k).map UserProfile.totalConfessions := by
  unfold awardAchievement
  cases hu : db.users (toString uid) with
  | none => rfl
  | some p =>
      dsimp only
      unfold upd
      by_cases hk : k = toString uid
      · rw [if_pos hk, hk, hu]
        rfl
      · rw [if_neg hk]

theorem totalConfessions_ite_award {db x : DB} (c : Prop) [Decidable c]
    (uid : Nat) (aid : String)
    (h : ∀ k, (x.users k).map UserProfile.totalConfessions
      = (db.users k).map UserProfile.totalConfessions) :
    ∀ k, ((if c then awardAchievement x uid aid else x).users k).map
        UserProfile.totalConfessions
      = (db.users k).map UserProfile.totalConfessions := by
  intro k
  split
  · exact (totalConfessions_awardAchievement x uid aid k).trans (h k)
  · exact h k

theorem totalConfessions_checkAchievements (db : DB) (uid : Nat) (now : Int)
    (hp : db.users (toString uid) ≠ none) :
    ∀ k, ((checkAchievements db uid now).users k).map
        UserProfile.totalConfessions
      = (db.users k).map UserProfile.totalConfessions := by
  cases hu : db.users (toString uid) with
  | none => exact absurd hu hp
  | some p =>
      unfold checkAchievements
      rw [getUserProfile_of_some now hu]
      dsimp only
      exact totalConfessions_ite_award _ _ _ (totalConfessions_ite_award _ _ _
        (totalConfessions_ite_award _ _ _ (totalConfessions_ite_award _ _ _
          (fun k => rfl))))

/-! ## C7: the submission contract -/

/-- C7: with an existing, active profile: a trimmed text of length 5-1000
submitted while the confession cooldown is inactive creates the pending
confession (no `confessionNumber`), records the cooldown timestamp and
increments the author's `totalConfessions`; a text whose trimmed length is
below 5 (resp. above 1000) is rejected as too short (too long) with the
store untouched; and with the cooldown active the call is rejected with the
remaining wait `Math.ceil((60000 - (now - lastSubmit)) / 1000)` seconds,
store untouched. -/
theorem C7_submit_contract (db : DB) (uid : Nat) (text : List Char)
    (now : Int) (p : UserProfile)
    (hu : db.users (toString uid) = some p) (hact : p.isActive = true) :
    (checkCooldown (db.cooldowns (toString uid)) "confession" 60000 now = true →
      jsTrim text = text → 5 ≤ text.length → text.length ≤ 1000 →
      (submit db uid text now).1 = .submitted (confessIdOf uid now)
      ∧ ((submit db uid text now).2.confessions (confessIdOf uid now)).map
          Confession.status = some .pending
      ∧ ((submit db uid text now).2.confessions (confessIdOf uid now)).map
          Confession.confessionNumber = some none
      ∧ ((submit db uid text now).2.cooldowns (toString uid)).map
          (fun d => d.fields "confession") = some (some now)
      ∧ ((submit db uid text now).2.users (toString uid)).map
          UserProfile.totalConfessions = some (p.totalConfessions + 1))
    ∧ (checkCooldown (db.cooldowns (toString uid)) "confession" 60000 now = true →
      (jsTrim text).length < 5 →
      (submit db uid text now).1 = .tooShort ∧ (submit db uid text now).2 = db)
    ∧ (checkCooldown (db.cooldowns (toString uid)) "confession" 60000 now = true →
      1000 < (jsTrim text).length →
      (submit db uid text now).1 = .tooLong ∧ (submit db uid text now).2 = db)
    ∧ (∀ d : CooldownDoc,
      checkCooldown (db.cooldowns (toString uid)) "confession" 60000 now = false →
      db.cooldowns (toString uid) = some d →
      (submit db uid text now).1
        = .rateLimited
            (mathCeilDiv (60000 - (now - ((d.fields "confession").getD 0))) 1000)
      ∧ (submit db uid text now).2 = db) := by
  refine ⟨?_, ?_, ?_, ?_⟩
  · intro hcool htrim hlo hhi
    have h5 : ¬ (jsTrim text).length < 5 := by rw [htrim]; omega
    have h1000 : ¬ 1000 < text.length := by omega
    have heq := (submit_eq_handleConfession text now hu hact hcool).trans
      (handleConfession_success hu h5 h1000)
    rw [heq]
    refine ⟨rfl, ?_, ?_, ?_, ?_⟩
    · rw [(usersOnly_checkAchievements _ _ _).2.1]
      simp [upd, pendingConfOf]
    · rw [(usersOnly_checkAchievements _ _ _).2.1]
      simp [upd, pendingConfOf]
    · rw [(usersOnly_checkAchievements _ _ _).2.2.2.1]
      simp [upd, setCooldown]
    · have h3 := totalConfessions_checkAchievements
        { db with
          confessions :=
            upd db.confessions (confessIdOf uid now) (pendingConfOf uid text now),
          users :=
            upd db.users (toString uid)
              ({ p with totalConfessions := p.totalConfessions + 1 }),
          cooldowns :=
            upd db.cooldowns (toString uid)
              (setCooldown (db.cooldowns (toString uid)) "confession" now) }
        uid now (by simp [upd]) (toString uid)
      rw [h3]
      simp [upd]
  · intro hcool h5
    have heq := (submit_eq_handleConfession text now hu hact hcool).trans
      (handleConfession_tooShort h5)
    rw [heq]
    exact ⟨rfl, rfl⟩
  · intro hcool hhi
    have h5 : ¬ (jsTrim text).length < 5 := by omega
    have h1000 : 1000 < text.length := by
      have := jsTrim_length_le text
      omega
    have heq := (submit_eq_handleConfession text now hu hact hcool).trans
      (handleConfession_tooLong h5 h1000)
    rw [heq]
    exact ⟨rfl, rfl⟩
  · intro d hc hd
    unfold submit
    rw [getUserProfile_of_some now hu]
    dsimp only
    rw [if_neg (by rw [hact]; exact fun h => absurd h (by decide)),
        if_pos hc, hd]
    exact ⟨rfl, rfl⟩

/-- C7 witness: a fresh active user submitting "hello there" at clock 100
gets a pending confession, the recorded cooldown and confession count 1;
the same user with a cooldown recorded at clock 90 is told to wait 60
seconds; a one-character text is rejected with no change. -/
theorem C7_submit_contract_witness :
    (submit dbU7 7 ("hello there".toList) 100).1 = .submitted "confess_7_100"
    ∧ ((submit dbU7 7 ("hello there".toList) 100).2.users "7").map
        UserProfile.totalConfessions = some 1
    ∧ (submit dbU7 7 ("x".toList) 100).1 = .tooShort
    ∧ (submit dbU7 7 ("x".toList) 100).2 = dbU7 := by
  have h := C7_submit_contract dbU7 7 ("hello there".toList) 100
    (defaultProfile 7 0) (by decide) (by decide)
  have hs := h.1 (by decide) (by decide) (by decide) (by decide)
  have h2 := C7_submit_contract dbU7 7 ("x".toList) 100
    (defaultProfile 7 0) (by decide) (by decide)
  have hshort := h2.2.1 (by decide) (by decide)
  exact ⟨hs.1, hs.2.2.2.2, hshort.1, hshort.2⟩

/-! ## C8: the stored confession text -/

/-- C8 (amended): every confession text that `Submit` stores is exactly the
sanitizer's output (trimmed), and its length is at most 1000 — sanitizing
only deletes characters, and the raw text passed the 1000-character check.
The lower bound of 5 does not survive storage, because validation runs on
the raw text before sanitization (see the counterexample). -/
theorem C8_stored_text_sanitized (db : DB) (uid : Nat) (text : List Char)
    (now : Int) (p : UserProfile)
    (hu : db.users (toString uid) = some p) (hact : p.isActive = true)
    (hcool : checkCooldown (db.cooldowns (toString uid)) "confession" 60000 now
      = true)
    (h5 : ¬ (jsTrim text).length < 5) (h1000 : ¬ 1000 < text.length) :
    ((submit db uid text now).2.confessions (confessIdOf uid now)).map
      Confession.text = some (jsTrim (sanitizeInput text))
    ∧ (jsTrim (sanitizeInput text)).length ≤ 1000 := by
  have heq := (submit_eq_handleConfession text now hu hact hcool).trans
    (handleConfession_success hu h5 h1000)
  constructor
  · rw [heq]
    rw [(usersOnly_checkAchievements _ _ _).2.1]
    simp [upd, pendingConfOf]
  · have ht := jsTrim_length_le (sanitizeInput text)
    have hs := sanitizeInput_length_le text
    omega

/-- C8 witness: the accepted plain text "hello there" is stored verbatim
(it is its own sanitization), with length 11 ≤ 1000. -/
theorem C8_stored_text_sanitized_witness :
    ((submit dbU7 7 ("hello there".toList) 100).2.confessions
      "confess_7_100").map Confession.text
      = some (jsTrim (sanitizeInput ("hello there".toList)))
    ∧ (jsTrim (sanitizeInput ("hello there".toList))).length ≤ 1000 := by
  exact C8_stored_text_sanitized dbU7 7 ("hello there".toList) 100
    (defaultProfile 7 0) (by decide) (by decide) (by decide) (by decide)
    (by decide)

/-- C8 counterexample: the raw text `ab<p>cd</p>` (11 characters) passes
validation, but the stored text is the sanitized `abcd` — 4 characters,
strictly below the claimed lower bound of 5.  Validation runs before
sanitization, so the stored-length invariant 5-1000 does not hold. -/
theorem C8_counterexample :
    (submit dbU7 7 ("ab<p>cd</p>".toList) 100).1 = .submitted "confess_7_100"
    ∧ ((submit dbU7 7 ("ab<p>cd</p>".toList) 100).2.confessions
        "confess_7_100").map (fun c => c.text.length) = some 4 := by
  decide

/-! ## C4: comment threads exist exactly for approved confessions -/

/-- The state invariant: a comment-thread document exists for an id exactly
when the confession exists and carries an assigned number. -/
def ThreadInv (db : DB) : Prop :=
  ∀ q : String, hasThread db q = hasNumber db q

theorem threadInv_of_eq {a b : DB} (hc : b.confessions = a.confessions)
    (ht : b.commentsCol = a.commentsCol) (hi : ThreadInv a) : ThreadInv b := by
  intro q
  have h2 := hi q
  unfold hasThread hasNumber at h2 ⊢
  rw [hc, ht]
  exact h2

theorem threadInv_pendingWrite {db : DB} {cid : String} {conf : Confession}
    (hn : conf.confessionNumber = none) (hfresh : db.confessions cid = none)
    (hi : ThreadInv db) :
    ThreadInv { db with confessions := upd db.confessions cid conf } := by
  intro q
  have h2 := hi q
  unfold hasThread hasNumber at h2 ⊢
  unfold upd
  dsimp only
  by_cases hq : q = cid
  · subst hq
    rw [if_pos rfl]
    rw [hfresh] at h2
    simp only [hn]
    simp only at h2
    rw [h2]
    rfl
  · rw [if_neg hq]
    exact h2

theorem threadInv_handleConfession (db : DB) (uid : Nat) (text : List Char)
    (now : Int) (hfresh : db.confessions (confessIdOf uid now) = none)
    (hi : ThreadInv db) :
    ThreadInv (handleConfession db uid text now).2 := by
  unfold handleConfession
  split
  · exact hi
  · split
    · exact hi
    · dsimp only
      split
      · exact threadInv_pendingWrite rfl hfresh hi
      · exact threadInv_of_eq
          ((usersOnly_checkAchievements _ _ _).2.1.trans rfl)
          ((usersOnly_checkAchievements _ _ _).2.2.1.trans rfl)
          (threadInv_pendingWrite rfl hfresh hi)

theorem threadInv_submit (db : DB) (uid : Nat) (text : List Char) (now : Int)
    (hfresh : db.confessions (confessIdOf uid now) = none)
    (hi : ThreadInv db) :
    ThreadInv (submit db uid text now).2 := by
  have hu0 := usersOnly_getUserProfile db uid now
  have hf0 : (getUserProfile db uid now).2.confessions (confessIdOf uid now)
      = none := by
    rw [hu0.2.1]
    exact hfresh
  have hi0 : ThreadInv (getUserProfile db uid now).2 :=
    threadInv_of_eq hu0.2.1 hu0.2.2.1 hi
  unfold submit
  dsimp only
  split
  · exact hi0
  · split
    · split
      · exact hi0
      · exact threadInv_handleConfession _ _ _ _ hf0 hi0
    · exact threadInv_handleConfession _ _ _ _ hf0 hi0

theorem threadInv_approve (db : DB) (cid : String) (now : Int)
    (hi : ThreadInv db) :
    ThreadInv (approve db cid now).2 := by
  unfold approve
  split
  · exact hi
  · rename_i confession hc
    dsimp only
    refine threadInv_of_eq
      ((usersOnly_checkAchievements _ _ _).2.1.trans
        ((usersOnly_updateReputation _ _ _).2.1.trans rfl))
      ((usersOnly_checkAchievements _ _ _).2.2.1.trans
        ((usersOnly_updateReputation _ _ _).2.2.1.trans rfl))
      ?_
    intro q
    have h2 := hi q
    unfold hasThread hasNumber at h2 ⊢
    unfold createCommentSection
    dsimp only
    unfold upd
    by_cases hq : q = cid
    · subst hq
      rw [if_pos rfl, if_pos rfl]
      rfl
    · rw [if_neg hq, if_neg hq]
      exact h2

theorem threadInv_reject (db : DB) (cid : String) (reason : List Char)
    (now : Int) (hi : ThreadInv db) :
    ThreadInv (handleRejection db cid reason now) := by
  unfold handleRejection
  split
  · exact hi
  · rename_i c hc
    dsimp only
    intro q
    have h2 := hi q
    unfold hasThread hasNumber at h2 ⊢
    unfold upd
    dsimp only
    by_cases hq : q = cid
    · subst hq
      rw [if_pos rfl]
      rw [hc] at h2
      exact h2
    · rw [if_neg hq]
      exact h2

theorem threadInv_addComment (db : DB) (uid : Nat) (cid : String)
    (text : List Char) (userName : String) (now : Int) (hi : ThreadInv db) :
    ThreadInv (addComment db uid cid text userName now).2 := by
  unfold addComment
  split
  · exact hi
  · split
    · exact hi
    · split
      · exact hi
      · rename_i thread hthread
        dsimp only
        split
        · exact hi
        · rename_i confession hconf
          refine threadInv_of_eq
            ((usersOnly_checkAchievements _ _ _).2.1.trans
              ((usersOnly_updateReputation _ _ _).2.1.trans rfl))
            ((usersOnly_checkAchievements _ _ _).2.2.1.trans
              ((usersOnly_updateReputation _ _ _).2.2.1.trans rfl))
            ?_
          intro q
          have h2 := hi q
          unfold hasThread hasNumber at h2 ⊢
          unfold upd
          dsimp only
          by_cases hq : q = cid
          · subst hq
            rw [if_pos rfl, if_pos rfl]
            rw [hthread, hconf] at h2
            simpa using h2.symm
          · rw [if_neg hq, if_neg hq]
            exact h2

theorem threadInv_rateCleanupOp (db : DB) (uid : Nat) (now : Int)
    (hi : ThreadInv db) :
    ThreadInv (rateCleanupOp db uid now) := by
  exact threadInv_of_eq rfl rfl hi

theorem reach_threadInv : ∀ {db : DB}, Reach db → ThreadInv db := by
  intro db h
  induction h with
  | init =>
      intro q
      rfl
  | @submit db uid text now hr hfresh ih =>
      exact threadInv_submit db uid text now hfresh ih
  | @approve db cid now hr ih =>
      exact threadInv_approve db cid now ih
  | @reject db cid reason now hr ih =>
      exact threadInv_reject db cid reason now ih
  | @addComment db uid cid text userName now hr ih =>
      exact threadInv_addComment db uid cid text userName now ih
  | @rateCleanup db uid now hr ih =>
      exact threadInv_rateCleanupOp db uid now ih

theorem approve_creates_thread (db : DB) (cid : String) (now : Int)
    (conf : Confession) (hc : db.confessions cid = some conf) :
    (approve db cid now).2.commentsCol cid
      = some { confessionId := cid,
               confessionNumber := (getNextConfessionNumber now db.counters).1,
               confessionText := conf.text, comments := [],
               totalComments := 0 } := by
  unfold approve
  rw [hc]
  dsimp only
  rw [(usersOnly_checkAchievements _ _ _).2.2.1,
      (usersOnly_updateReputation _ _ _).2.2.1]
  unfold createCommentSection
  dsimp only
  simp [upd]

/-- C4: in every reachable store, a comment-thread document exists for a
confession id exactly when that confession carries an assigned sequence
number — which in this model happens exactly when it has been approved
(only `approve` assigns numbers and creates threads, rejection clears
neither); every successful approval (re-)creates the thread with an empty
comment sequence and total 0; and (given the earlier length and rate
checks pass) `addComment` fails with not-found exactly when no thread
document exists. -/
theorem C4_thread_exactly_for_approved :
    (∀ db : DB, Reach db → ∀ cid : String, hasThread db cid = hasNumber db cid)
    ∧ (∀ (db : DB) (cid : String) (now : Int) (conf : Confession),
        db.confessions cid = some conf →
        (approve db cid now).2.commentsCol cid
          = some { confessionId := cid,
                   confessionNumber :=
                     (getNextConfessionNumber now db.counters).1,
                   confessionText := conf.text, comments := [],
                   totalComments := 0 })
    ∧ (∀ (db : DB) (uid : Nat) (cid : String) (ctext : List Char)
        (uname : String) (now : Int),
        ¬ (jsTrim ctext).length < 3 →
        checkCommentRateLimit (db.rateLimits (toString uid)) now 30000 3
          = true →
        ((addComment db uid cid ctext uname now).1 = .notFound ↔
          db.commentsCol cid = none)) := by
  refine ⟨?_, ?_, ?_⟩
  · intro db h cid
    exact reach_threadInv h cid
  · exact approve_creates_thread
  · intro db uid cid ctext uname now hlen hrate
    have hrate2 : ¬ (checkCommentRateLimit (db.rateLimits (toString uid))
        now 30000 3 = false) := by
      rw [hrate]
      exact fun h => absurd h (by decide)
    unfold addComment
    rw [if_neg hlen, if_neg hrate2]
    cases hth : db.commentsCol cid with
    | none => simp
    | some thread =>
        dsimp only
        cases hcf : db.confessions cid with
        | none => simp
        | some confession => simp

/-- C4 witness: in the reachable store with one approved confession, the
thread-iff-number equivalence is exhibited at the approved id (both sides
true) and at a never-submitted id (both sides false); approving the pending
confession created its thread with zero comments; and `addComment` on an
unknown id reports not-found. -/
theorem C4_thread_exactly_for_approved_witness :
    hasThread dbApproved (confessIdOf 7 100)
      = hasNumber dbApproved (confessIdOf 7 100)
    ∧ hasThread dbApproved "confess_9_999" = hasNumber dbApproved "confess_9_999"
    ∧ (approve (step initDB (.submit 7 sampleText 100)) (confessIdOf 7 100)
        200).2.commentsCol (confessIdOf 7 100)
      = some { confessionId := confessIdOf 7 100, confessionNumber := 1,
               confessionText := jsTrim (sanitizeInput sampleText),
               comments := [], totalComments := 0 }
    ∧ (addComment dbApproved 7 "confess_9_999" ("abc".toList) "B" 400).1
      = .notFound := by
  have h1 : Reach (step initDB (.submit 7 sampleText 100)) :=
    Reach.submit 7 sampleText 100 Reach.init rfl
  have h2 : Reach dbApproved :=
    Reach.approve (confessIdOf 7 100) 200 h1
  refine ⟨C4_thread_exactly_for_approved.1 dbApproved h2 (confessIdOf 7 100),
    C4_thread_exactly_for_approved.1 dbApproved h2 "confess_9_999", ?_, ?_⟩
  · have h3 := C4_thread_exactly_for_approved.2.1
      (step initDB (.submit 7 sampleText 100)) (confessIdOf 7 100) 200
      (pendingConfOf 7 sampleText 100) (by decide)
    rw [h3]
    decide
  · exact (C4_thread_exactly_for_approved.2.2 dbApproved 7 "confess_9_999"
      ("abc".toList) "B" 400 (by decide) (by decide)).mpr (by decide)

end ConfessionBot
